import Mathlib

/-!
Verification of the payto-slackbot command-dispatch and payment-orchestration
workflow (src/index.js).  The JavaScript regexes are embedded as abstract
syntax trees interpreted by a backtracking matcher with JavaScript semantics
(leftmost match, greedy and lazy quantifiers, numbered capture groups); the
HTTP handlers are embedded as pure functions over explicit oracles for the
external collaborators (credential store, chat platform, payment client),
recording the outbound calls they make in order.
-/

namespace Payto

/-- Capture list: group index paired with the consumed characters.  Groups are
    prepended as their subexpression finishes matching, so later groups appear
    first; groups are read back by `List.lookup`. -/
abbrev Caps := List (Nat × List Char)

/-- Regular-expression ASTs sufficient for the four patterns in src/index.js
    lines 12-15: character classes, concatenation, greedy star/plus and lazy
    plus over a character class, greedy option, numbered capture groups and
    the `$` end anchor.  (`^` is represented by running the match anchored.) -/
inductive RE where
  | eps : RE
  | ch (p : Char → Bool) : RE
  | cat (a b : RE) : RE
  | starG (p : Char → Bool) : RE
  | plusG (p : Char → Bool) : RE
  | plusL (p : Char → Bool) : RE
  | opt (a : RE) : RE
  | grp (i : Nat) (a : RE) : RE
  | eos : RE

/-- Greedy Kleene star over a character class: consume as many characters as
    possible, backtracking from the longest prefix toward the shortest until
    the continuation succeeds. -/
def starGrun (p : Char → Bool) : List Char → (List Char → Option Caps) → Option Caps
  | [], k => k []
  | c :: rest, k =>
    if p c then (starGrun p rest k).orElse (fun _ => k (c :: rest))
    else k (c :: rest)

/-- Greedy plus over a character class: one mandatory character, then a greedy
    star. -/
def plusGrun (p : Char → Bool) : List Char → (List Char → Option Caps) → Option Caps
  | [], _ => none
  | c :: rest, k => if p c then starGrun p rest k else none

/-- Lazy plus over a character class: consume one character then prefer
    stopping, extending only when the continuation fails. -/
def plusLrun (p : Char → Bool) : List Char → (List Char → Option Caps) → Option Caps
  | [], _ => none
  | c :: rest, k =>
    if p c then (k rest).orElse (fun _ => plusLrun p rest k)
    else none

/-- Backtracking matcher in continuation-passing style.  `mrun r s k caps`
    matches `r` against a prefix of `s`, calling `k` with the remaining input
    and the capture list extended with the groups completed inside `r`. -/
def mrun : RE → List Char → (List Char → Caps → Option Caps) → Caps → Option Caps
  | .eps, s, k, caps => k s caps
  | .ch p, s, k, caps =>
    match s with
    | [] => none
    | c :: rest => if p c then k rest caps else none
  | .cat a b, s, k, caps => mrun a s (fun s2 c2 => mrun b s2 k c2) caps
  | .starG p, s, k, caps => starGrun p s (fun s2 => k s2 caps)
  | .plusG p, s, k, caps => plusGrun p s (fun s2 => k s2 caps)
  | .plusL p, s, k, caps => plusLrun p s (fun s2 => k s2 caps)
  | .opt a, s, k, caps => (mrun a s k caps).orElse (fun _ => k s caps)
  | .grp i a, s, k, caps =>
    mrun a s (fun s2 c2 => k s2 ((i, s.take (s.length - s2.length)) :: c2)) caps
  | .eos, s, k, caps =>
    match s with
    | [] => k [] caps
    | _ :: _ => none

/-- Anchored match attempt at the start of the input (JavaScript `^`). -/
def execA (r : RE) (s : List Char) : Option Caps :=
  mrun r s (fun _ caps => some caps) []

/-- Unanchored `RegExp.exec`: try each start position left to right and return
    the captures of the leftmost successful match. -/
def execFrom (r : RE) : List Char → Option Caps
  | [] => execA r []
  | c :: rest => (execA r (c :: rest)).orElse (fun _ => execFrom r rest)

/-- Literal character (case-sensitive). -/
def litRE (c : Char) : RE := .ch fun x => x == c

/-- Literal character under the `i` flag: the input character is compared
    lowercased against the (lowercase) pattern character. -/
def litCIRE (c : Char) : RE := .ch fun x => x.toLower == c

/-- Concatenation of a list of regexes. -/
def catAll : List RE → RE
  | [] => .eps
  | r :: rs => .cat r (catAll rs)

/-- Case-sensitive string literal regex. -/
def strRE (s : String) : RE := catAll (s.data.map litRE)

/-- Case-insensitive string literal regex (pattern given in lowercase). -/
def strCIRE (s : String) : RE := catAll (s.data.map litCIRE)

/-- JavaScript `\s` (the WhiteSpace and LineTerminator productions). -/
def jsWhitespace (c : Char) : Bool :=
  c == ' ' || c == '\t' || c == '\n' || c == '\r' || c == '\x0b' || c == '\x0c' ||
  c == '\u00A0' || c == '\u1680' || ('\u2000' ≤ c && c ≤ '\u200A') ||
  c == '\u2028' || c == '\u2029' || c == '\u202F' || c == '\u205F' ||
  c == '\u3000' || c == '\uFEFF'

/-- JavaScript `\S`. -/
def nonspaceP (c : Char) : Bool := !jsWhitespace c

/-- JavaScript `.` without the `s` flag: any character except a line
    terminator. -/
def dotP (c : Char) : Bool :=
  !(c == '\n' || c == '\r' || c == '\u2028' || c == '\u2029')

/-- `[a-z0-9]` under the `i` flag. -/
def alnumP (c : Char) : Bool :=
  ('a' ≤ c && c ≤ 'z') || ('A' ≤ c && c ≤ 'Z') || ('0' ≤ c && c ≤ '9')

/-- JavaScript `\d`. -/
def digitP (c : Char) : Bool := '0' ≤ c && c ≤ '9'

/-- SEND_REGEX (src/index.js line 12):
    `/^<@([a-z0-9]+)\|([a-z0-9]+)> (\d+\.?\d*) ?(.*)?$/i`. -/
def sendRE : RE :=
  .cat (litRE '<')
  (.cat (litRE '@')
  (.cat (.grp 1 (.plusG alnumP))
  (.cat (litRE '|')
  (.cat (.grp 2 (.plusG alnumP))
  (.cat (litRE '>')
  (.cat (litRE ' ')
  (.cat (.grp 3 (.cat (.plusG digitP) (.cat (.opt (litRE '.')) (.starG digitP))))
  (.cat (.opt (litRE ' '))
  (.cat (.opt (.grp 4 (.starG dotP)))
  .eos)))))))))

/-- REGISTER_REGEX (src/index.js line 13): `/register (\S+)@(\S+) (.+)$/i`. -/
def registerRE : RE :=
  .cat (strCIRE "register ")
  (.cat (.grp 1 (.plusG nonspaceP))
  (.cat (litRE '@')
  (.cat (.grp 2 (.plusG nonspaceP))
  (.cat (litRE ' ')
  (.cat (.grp 3 (.plusG dotP))
  .eos)))))

/-- REGISTER_ESCAPED_REGEX (src/index.js line 14):
    `/register .*<mailto:.*\|(\S+?)@(\S+?)\> (.+)$/`. -/
def escapedRE : RE :=
  .cat (strRE "register ")
  (.cat (.starG dotP)
  (.cat (strRE "<mailto:")
  (.cat (.starG dotP)
  (.cat (litRE '|')
  (.cat (.grp 1 (.plusL nonspaceP))
  (.cat (litRE '@')
  (.cat (.grp 2 (.plusL nonspaceP))
  (.cat (litRE '>')
  (.cat (litRE ' ')
  (.cat (.grp 3 (.plusG dotP))
  .eos))))))))))

/-- INFO_REGEX (src/index.js line 15): `/info/i`. -/
def infoRE : RE := strCIRE "info"

/-- Parameters the send handler extracts from a SEND_REGEX match
    (src/index.js lines 177-182); group 4 (the optional message) may be
    absent. -/
structure SendParams where
  id : String
  name : String
  amount : String
  message : Option String
deriving DecidableEq, Repr

/-- `SEND_REGEX.exec(text)` followed by the parameter extraction of
    src/index.js lines 173-182 (the regex is `^`-anchored, so matching is
    anchored). -/
def sendParse (t : String) : Option SendParams :=
  (execA sendRE t.data).map fun caps =>
    ⟨String.mk ((caps.lookup 1).getD []), String.mk ((caps.lookup 2).getD []),
     String.mk ((caps.lookup 3).getD []), (caps.lookup 4).map String.mk⟩

/-- `REGISTER_REGEX.exec(text)` with the three capture groups of
    src/index.js lines 262-265. -/
def registerParse (t : String) : Option (String × String × String) :=
  (execFrom registerRE t.data).map fun caps =>
    (String.mk ((caps.lookup 1).getD []), String.mk ((caps.lookup 2).getD []),
     String.mk ((caps.lookup 3).getD []))

/-- `REGISTER_ESCAPED_REGEX.exec(text)` with the three capture groups of
    src/index.js lines 89-92. -/
def escapedParse (t : String) : Option (String × String × String) :=
  (execFrom escapedRE t.data).map fun caps =>
    (String.mk ((caps.lookup 1).getD []), String.mk ((caps.lookup 2).getD []),
     String.mk ((caps.lookup 3).getD []))

/-- `SEND_REGEX.test(text)` (src/index.js line 85); JavaScript `test` is
    `exec` discarding the captures. -/
def sendTest (t : String) : Bool := (sendParse t).isSome

/-- `REGISTER_ESCAPED_REGEX.test(text)` (src/index.js line 87). -/
def escapedTest (t : String) : Bool := (escapedParse t).isSome

/-- `REGISTER_REGEX.test(text)` (src/index.js line 95). -/
def registerTest (t : String) : Bool := (registerParse t).isSome

/-- `INFO_REGEX.test(text)` (src/index.js line 97). -/
def infoTest (t : String) : Bool := (execFrom infoRE t.data).isSome

/-- Credential record stored in redis per chat user (src/index.js
    lines 276-280). -/
structure Credentials where
  ilpKitHost : String
  username : String
  password : String
deriving DecidableEq, Repr

/-- The credential store (`ctx.db`): a key/value map from the Slack user id to
    the credential hash; `hgetall` on an absent key yields null. -/
def Store := String → Option Credentials

/-- The parsed slash-command form body (src/index.js uses `body.user_id`,
    `body.user_name`, `body.text`, `body.response_url`). -/
structure Body where
  user_id : String
  user_name : String
  text : String
  response_url : String
deriving DecidableEq, Repr

/-- Outbound calls to the external collaborators, in the order the handlers
    issue them. -/
inductive Call where
  | userInfo (id : String)
  | signupPost (toUserId toUsername fromUserId fromUsername : String)
  | confirmPost (url : String)
  | receiptPost (channel : String)
  | errorPost (url : String)
  | profileSet (user value : String)
  | quoteCall (destination destinationAmount : String)
  | detailsCall (destination : String)
  | paymentCall (quoteId : String)
  | balanceGet (username : String)
  | configGet
deriving DecidableEq, Repr

/-- Calls addressed to the chat platform Web API (users.profile.get,
    chat.postMessage, users.profile.set). -/
def Call.isChatPlatform : Call → Bool
  | .userInfo _ => true
  | .signupPost _ _ _ _ => true
  | .receiptPost _ => true
  | .profileSet _ _ => true
  | _ => false

/-- The signup/nudge notification posted by `sendSignupMessage`
    (src/index.js lines 395-422). -/
def Call.isSignup : Call → Bool
  | .signupPost _ _ _ _ => true
  | _ => false

/-- Calls addressed to the payment client (the ILP kit REST API). -/
def Call.isPaymentClient : Call → Bool
  | .quoteCall _ _ => true
  | .detailsCall _ => true
  | .paymentCall _ => true
  | .balanceGet _ => true
  | .configGet => true
  | _ => false

/-- Result of one handler invocation: the HTTP status of the synchronous
    response (200 unless `ctx.status` is assigned), the synchronous response
    text (`ctx.body.text`), and the outbound calls made, in order. -/
structure HandlerOut where
  status : Nat
  bodyText : String
  calls : List Call
deriving DecidableEq, Repr

/-- Outcome of resolving the recipient's SPSP address from their Slack
    profile (src/index.js lines 192-198): the profile fetch may throw, the
    designated field may be absent (reading `.value` of `undefined` throws),
    or the field's value may be present. -/
inductive ProfileFetch where
  | fetchError
  | noField
  | value (v : String)
deriving DecidableEq, Repr

/-- src/index.js lines 192-198: the resolved SPSP address, or `none` when the
    lookup threw, the field was absent, or the value was falsy (empty). -/
def resolveSpsp : ProfileFetch → Option String
  | .fetchError => none
  | .noField => none
  | .value v => if v == "" then none else some v

/-- Quote returned by the payment client (src/index.js lines 354, 374, 389:
    only `id` and `sourceAmount` are consumed). -/
structure Quote where
  id : String
  sourceAmount : String
deriving DecidableEq, Repr

/-- Oracle fixing the outcomes of the three payment-client calls of
    `sendPayment`: `none`/`false` means that HTTP call would throw. -/
structure PayOracle where
  quoteRes : Option Quote
  detailsRes : Option String
  payOk : Bool
deriving DecidableEq, Repr

/-- Outcome of `sendPayment` (src/index.js lines 388-392). -/
structure PayResult where
  sourceAmount : String
  sourceAddress : String
deriving DecidableEq, Repr

/-- Host component of an `https:` URL as computed by the WHATWG `URL` class
    (external to this repository; used at src/index.js lines 126 and 390):
    the authority runs from after `https://` to the first `/`, `\`, `?` or
    `#`; userinfo up to the last `@` of the authority is dropped; ASCII
    letters of the domain are lowercased; an empty port and the scheme-default
    port `443` are elided, any other port text is kept.  Percent-decoding,
    IDNA/punycode, IPv4-address normalization, port-number validation and
    IPv6 bracket syntax are not modelled, so the model is only relied on for
    hosts that use none of those features — the round-trip theorem below
    restricts its hosts accordingly. -/
def urlHost (s : String) : String :=
  let auth := (s.data.drop 8).takeWhile fun c =>
    !(c == '/' || c == '\\' || c == '?' || c == '#')
  let hostport := (auth.reverse.takeWhile fun c => !(c == '@')).reverse
  let domain := (hostport.takeWhile fun c => !(c == ':')).map Char.toLower
  let port := (hostport.dropWhile fun c => !(c == ':')).drop 1
  if port = [] ∨ port = ['4', '4', '3'] then String.mk domain
  else String.mk (domain ++ ':' :: port)

/-- src/index.js line 126 (and line 390): the displayable SPSP address derived
    from a stored credential record:
    `credentials.username + '@' + (new URL(credentials.ilpKitHost)).host`. -/
def derivedSpspAddress (c : Credentials) : String :=
  c.username ++ "@" ++ urlHost c.ilpKitHost

/-- `sendPayment` (src/index.js lines 342-393): quote, then destination
    details, then payment execution, each aborting the sequence with its own
    message on failure.  Returns the payment-client calls made, in order, and
    either the failure message handed to `sendError` or the success value. -/
def sendPayment (o : PayOracle) (spspAddress amount : String) (_message : Option String)
    (credentials : Credentials) : List Call × Except String PayResult :=
  match o.quoteRes with
  | none =>
    ([.quoteCall spspAddress amount],
     .error "Eek! No quote found... :zipper_mouth_face:")
  | some quote =>
    match o.detailsRes with
    | none =>
      ([.quoteCall spspAddress amount, .detailsCall spspAddress],
       .error "Hmm, I couldn't get the details for that user's SPSP Address... :confused:")
    | some _ =>
      if o.payOk then
        ([.quoteCall spspAddress amount, .detailsCall spspAddress, .paymentCall quote.id],
         .ok ⟨quote.sourceAmount, credentials.username ++ "@" ++ urlHost credentials.ilpKitHost⟩)
      else
        ([.quoteCall spspAddress amount, .detailsCall spspAddress, .paymentCall quote.id],
         .error "Something went wrong while sending the payment :cold_sweat:")

/-- Oracle for one run of the send handler: the recipient-profile resolution
    outcome and the payment-client outcomes. -/
structure SendOracle where
  profile : ProfileFetch
  pay : PayOracle
deriving DecidableEq, Repr

/-- src/index.js line 207-209. -/
def uhOhText (params : SendParams) : String :=
  "Uh oh! <@" ++ params.id ++ "|" ++ params.name ++
  "> doesn't have their SPSP Address in their Slack Profile.\n\nI've sent them a message to suggest they add it, but you might want to give them a little nudge as well!"

/-- `sendHandler` (src/index.js lines 160-252): credential lookup, parameter
    re-parse (400 on failure), SPSP-address resolution (signup nudge plus
    explanatory response on failure), then the acknowledgment response and the
    deferred payment flow with its follow-up posts. -/
def sendHandler (store : Store) (body : Body) (o : SendOracle) : HandlerOut :=
  match store body.user_id with
  | none =>
    ⟨200, "You need to register an ILP kit account before you can send payments!", []⟩
  | some credentials =>
    match sendParse body.text with
    | none => ⟨400, "parameters must be in the form \"@user amount [message]\"", []⟩
    | some params =>
      match resolveSpsp o.profile with
      | none =>
        ⟨200, uhOhText params,
         [.userInfo params.id,
          .signupPost params.id params.name body.user_id body.user_name]⟩
      | some spspAddress =>
        let pay := sendPayment o.pay spspAddress params.amount params.message credentials
        ⟨200,
         "Paying " ++ params.amount ++ " to @" ++ params.name ++ " (" ++ spspAddress ++ ")...",
         [.userInfo params.id] ++ pay.1 ++
          (match pay.2 with
           | .error _ => [.errorPost body.response_url]
           | .ok _ => [.confirmPost body.response_url, .receiptPost ("@" ++ params.name)])⟩

/-- `registerHandler` (src/index.js lines 254-313): on a REGISTER_REGEX match
    the credential record is overwritten and the SPSP address is written to
    the user's Slack profile (best effort); on no match, reading `match[1]`
    throws, producing the 400 validation response without touching the store.
    Returns the handler output and the store after the command. -/
def registerHandler (store : Store) (body : Body) (profileSetOk : Bool) :
    HandlerOut × Store :=
  match registerParse body.text with
  | none =>
    (⟨400, "You need to give your SPSP Address and password to register", []⟩, store)
  | some (username, host, password) =>
    let creds : Credentials := ⟨"https://" ++ host, username, password⟩
    let store2 : Store := fun k => if k == body.user_id then some creds else store k
    let spspAddress := username ++ "@" ++ host
    if profileSetOk then
      (⟨200,
        "Registered :ok_hand:\n\nYou can send payments by typing:\n`/payto @user amount [optional message]`",
        [.profileSet body.user_id spspAddress]⟩, store2)
    else
      (⟨200,
        "Registered :ok_hand:\n\nNow just set your SPSP Address in your Slack Profile!\n\nYou can send payments by typing:\n`/payto @user amount [optional message]`",
        [.profileSet body.user_id spspAddress]⟩, store2)

/-- Balance placeholder (src/index.js line 148). -/
def balPH : String := "(Unable to determine balance)"

/-- Currency placeholder (src/index.js line 145). -/
def curPH : String := "(Unable to determine currency)"

/-- A JavaScript value as relevant to the info handler's truthiness checks:
    `undefined`, a string, or a number. -/
inductive JsVal where
  | undef
  | str (s : String)
  | num (n : Int)
deriving DecidableEq, Repr

/-- JavaScript truthiness for the modelled values. -/
def JsVal.truthy : JsVal → Bool
  | .undef => false
  | .str s => !(s == "")
  | .num n => !(n == 0)

/-- Template-literal rendering of a JavaScript value. -/
def JsVal.render : JsVal → String
  | .undef => "undefined"
  | .str s => s
  | .num n => toString n

/-- Outcome of the info handler's two payment-client fetches (src/index.js
    lines 130-143): the balance request may throw (leaving both variables
    unset), the config request may throw (leaving currency unset), or both
    succeed yielding `balance`, `currencySymbol` and `currencyCode`. -/
inductive InfoFetch where
  | bothFail
  | currencyFail (balance : JsVal)
  | ok (balance currencySymbol currencyCode : JsVal)
deriving DecidableEq, Repr

/-- The account-info response template (src/index.js lines 151-157). -/
def infoText (spspAddress currency balance : String) : String :=
  "Account Info:\n> SPSP Address: `" ++ spspAddress ++ "`\n> Balance: `" ++
  currency ++ " " ++ balance ++
  "`\n\nYou can add more money by sending to your SPSP Address from any other ILP/SPSP wallet."

/-- `infoHandler` (src/index.js lines 115-158): registered users always get
    the account-info response; falsy balance/currency values (unset after a
    failed fetch, or fetched falsy) are replaced by the placeholders. -/
def infoHandler (store : Store) (body : Body) (f : InfoFetch) : HandlerOut :=
  match store body.user_id with
  | none => ⟨200, "You need to register an ILP kit account first!", []⟩
  | some credentials =>
    let spspAddress := derivedSpspAddress credentials
    match f with
    | .bothFail =>
      ⟨200, infoText spspAddress curPH balPH, [.balanceGet credentials.username]⟩
    | .currencyFail balance =>
      ⟨200,
       infoText spspAddress curPH (if balance.truthy then balance.render else balPH),
       [.balanceGet credentials.username, .configGet]⟩
    | .ok balance currencySymbol currencyCode =>
      let currency := if currencySymbol.truthy then currencySymbol else currencyCode
      ⟨200,
       infoText spspAddress
         (if currency.truthy then currency.render else curPH)
         (if balance.truthy then balance.render else balPH),
       [.balanceGet credentials.username, .configGet]⟩

/-- Handler selected by the dispatcher for a given command text. -/
inductive HKind where
  | send
  | registerEsc
  | register
  | info
  | help
deriving DecidableEq, Repr

/-- The dispatch chain of `requestHandler` (src/index.js lines 85-101):
    SEND_REGEX, then REGISTER_ESCAPED_REGEX, then REGISTER_REGEX, then
    INFO_REGEX, else the help message. -/
def classify (t : String) : HKind :=
  if sendTest t then .send
  else if escapedTest t then .registerEsc
  else if registerTest t then .register
  else if infoTest t then .info
  else .help

/-- The static help message (src/index.js lines 104-113). -/
def helpText : String :=
  "Available commands:\n\n    - `/payto register user@ilp-kit.example password` - Register ILP Kit account to send payments\n    - `/payto @user amount [optional message]`        - Send an ILP payment\n    - `/payto info`                                   - Get your balance and SPSP Address\n"

/-- The rewrite of an escaped-mention registration (src/index.js line 93):
    `` `register ${username}@${host} ${password}` ``. -/
def rewriteEsc (username host password : String) : String :=
  "register " ++ username ++ "@" ++ host ++ " " ++ password

/-- `requestHandler` (src/index.js lines 82-102) composed with the selected
    handler.  In the escaped-register branch the text is rewritten before the
    register handler runs; the `none` sub-branch there is unreachable (the
    test just succeeded) and corresponds to the uncaught TypeError a null
    match would raise, surfaced by the Koa error middleware as status 500. -/
def requestHandler (store : Store) (body : Body) (o : SendOracle) (fi : InfoFetch)
    (profileSetOk : Bool) : HandlerOut × Store :=
  match classify body.text with
  | .send => (sendHandler store body o, store)
  | .registerEsc =>
    match escapedParse body.text with
    | some (username, host, password) =>
      registerHandler store { body with text := rewriteEsc username host password } profileSetOk
    | none => (⟨500, "", []⟩, store)
  | .register => registerHandler store body profileSetOk
  | .info => (infoHandler store body fi, store)
  | .help => (⟨200, helpText, []⟩, store)

/-! Shared concrete sample data for the witness theorems. -/

/-- A sample credential record. -/
def creds0 : Credentials := ⟨"https://wallet.example", "alice", "hunter2"⟩

/-- A store with no records. -/
def store0 : Store := fun _ => none

/-- A store in which every user holds `creds0`. -/
def store1 : Store := fun _ => some creds0

/-- A sample well-formed send command body. -/
def body1 : Body := ⟨"usender", "sender", "<@u123|alice> 5.00 hi", "https://resp.example"⟩

/-- A send oracle whose profile lookup throws and whose payment calls would
    all fail. -/
def oracleFail : SendOracle := ⟨.fetchError, ⟨none, none, false⟩⟩

/-- C1: a well-formed send command whose sender has credentials but whose
    recipient's SPSP address cannot be resolved produces exactly one signup
    nudge to the recipient, the explanatory response to the sender, and no
    payment-client call. -/
theorem C1_theorem (store : Store) (body : Body) (o : SendOracle)
    (creds : Credentials) (params : SendParams)
    (hc : store body.user_id = some creds)
    (hp : sendParse body.text = some params)
    (hf : resolveSpsp o.profile = none) :
    (sendHandler store body o).calls.filter Call.isSignup =
      [Call.signupPost params.id params.name body.user_id body.user_name] ∧
    (sendHandler store body o).calls.filter Call.isPaymentClient = [] ∧
    (sendHandler store body o).bodyText = uhOhText params ∧
    (sendHandler store body o).status = 200 := by
  simp [sendHandler, hc, hp, hf, Call.isSignup, Call.isPaymentClient]

/-- C1 witness: concrete run with a registered sender and a failing profile
    lookup. -/
theorem C1_witness :
    (sendHandler store1 body1 oracleFail).calls.filter Call.isSignup =
      [Call.signupPost "u123" "alice" "usender" "sender"] ∧
    (sendHandler store1 body1 oracleFail).calls.filter Call.isPaymentClient = [] ∧
    (sendHandler store1 body1 oracleFail).bodyText =
      uhOhText ⟨"u123", "alice", "5.00", some "hi"⟩ ∧
    (sendHandler store1 body1 oracleFail).status = 200 :=
  C1_theorem store1 body1 oracleFail creds0 ⟨"u123", "alice", "5.00", some "hi"⟩
    rfl rfl rfl

/-- C2: in `sendPayment` the quote, destination-details and payment-execution
    calls run strictly in that order; the first failing step aborts with that
    step's message and no later call is made. -/
theorem C2_theorem (o : PayOracle) (spspAddress amount : String)
    (message : Option String) (credentials : Credentials) :
    (o.quoteRes = none →
      sendPayment o spspAddress amount message credentials =
        ([.quoteCall spspAddress amount],
         .error "Eek! No quote found... :zipper_mouth_face:")) ∧
    (∀ quote, o.quoteRes = some quote → o.detailsRes = none →
      sendPayment o spspAddress amount message credentials =
        ([.quoteCall spspAddress amount, .detailsCall spspAddress],
         .error "Hmm, I couldn't get the details for that user's SPSP Address... :confused:")) ∧
    (∀ quote details, o.quoteRes = some quote → o.detailsRes = some details →
      o.payOk = false →
      sendPayment o spspAddress amount message credentials =
        ([.quoteCall spspAddress amount, .detailsCall spspAddress, .paymentCall quote.id],
         .error "Something went wrong while sending the payment :cold_sweat:")) ∧
    (∀ quote details, o.quoteRes = some quote → o.detailsRes = some details →
      o.payOk = true →
      sendPayment o spspAddress amount message credentials =
        ([.quoteCall spspAddress amount, .detailsCall spspAddress, .paymentCall quote.id],
         .ok ⟨quote.sourceAmount,
              credentials.username ++ "@" ++ urlHost credentials.ilpKitHost⟩)) := by
  refine ⟨fun hq => ?_, fun quote hq hd => ?_, fun quote details hq hd hp => ?_,
          fun quote details hq hd hp => ?_⟩
  · simp [sendPayment, hq]
  · simp [sendPayment, hq, hd]
  · simp [sendPayment, hq, hd, hp]
  · simp [sendPayment, hq, hd, hp]

/-- C2 witness: a failing quote call is the only call made. -/
theorem C2_witness :
    sendPayment ⟨none, none, false⟩ "alice@wallet.example" "5.00" none creds0 =
      ([.quoteCall "alice@wallet.example" "5.00"],
       .error "Eek! No quote found... :zipper_mouth_face:") :=
  (C2_theorem ⟨none, none, false⟩ "alice@wallet.example" "5.00" none creds0).1 rfl

/-- C3: a send command from a user with no credential record gets the
    immediate "not registered" response and no outbound call at all. -/
theorem C3_theorem (store : Store) (body : Body) (o : SendOracle)
    (hc : store body.user_id = none) :
    (sendHandler store body o).calls = [] ∧
    (sendHandler store body o).bodyText =
      "You need to register an ILP kit account before you can send payments!" ∧
    (sendHandler store body o).status = 200 := by
  simp [sendHandler, hc]

/-- C3 witness: concrete run against the empty store. -/
theorem C3_witness :
    (sendHandler store0 body1 oracleFail).calls = [] ∧
    (sendHandler store0 body1 oracleFail).bodyText =
      "You need to register an ILP kit account before you can send payments!" ∧
    (sendHandler store0 body1 oracleFail).status = 200 :=
  C3_theorem store0 body1 oracleFail rfl

/-- C6: for a registered user, a failure of the balance fetch or of the
    currency fetch still yields the normal account-info response, with the
    placeholders substituted for whatever is missing. -/
theorem C6_theorem (store : Store) (body : Body) (creds : Credentials)
    (hc : store body.user_id = some creds) :
    (infoHandler store body .bothFail =
      ⟨200, infoText (derivedSpspAddress creds) curPH balPH,
       [.balanceGet creds.username]⟩) ∧
    (∀ balance, infoHandler store body (.currencyFail balance) =
      ⟨200, infoText (derivedSpspAddress creds) curPH
          (if balance.truthy then balance.render else balPH),
       [.balanceGet creds.username, .configGet]⟩) := by
  constructor
  · simp [infoHandler, hc]
  · intro balance; simp [infoHandler, hc]

/-- C6 witness: both fetches fail for a registered user. -/
theorem C6_witness :
    infoHandler store1 body1 .bothFail =
      ⟨200, infoText (derivedSpspAddress creds0) curPH balPH,
       [.balanceGet creds0.username]⟩ :=
  (C6_theorem store1 body1 creds0 rfl).1

/-- C7: a register command whose text does not match REGISTER_REGEX produces
    the validation-error response, makes no outbound call, and leaves the
    requester's credential record untouched. -/
theorem C7_theorem (store : Store) (body : Body) (profileSetOk : Bool)
    (hm : registerParse body.text = none) :
    (registerHandler store body profileSetOk).1 =
      ⟨400, "You need to give your SPSP Address and password to register", []⟩ ∧
    (registerHandler store body profileSetOk).2 body.user_id = store body.user_id := by
  simp [registerHandler, hm]

/-- C7 witness: `register nope` (no account locator) is rejected and the
    store entry is unchanged. -/
theorem C7_witness :
    (registerHandler store0 ⟨"u9", "bob", "register nope", "https://resp.example"⟩ true).1 =
      ⟨400, "You need to give your SPSP Address and password to register", []⟩ ∧
    (registerHandler store0 ⟨"u9", "bob", "register nope", "https://resp.example"⟩ true).2 "u9" =
      store0 "u9" :=
  C7_theorem store0 ⟨"u9", "bob", "register nope", "https://resp.example"⟩ true rfl

/-- C10: when the info fetches succeed but return a falsy balance, the
    response shows the balance placeholder instead of the value; likewise a
    falsy currency (symbol and code both falsy) shows the currency
    placeholder. -/
theorem C10_theorem (store : Store) (body : Body) (creds : Credentials)
    (balance currencySymbol currencyCode : JsVal)
    (hc : store body.user_id = some creds) :
    (balance.truthy = false →
      (infoHandler store body (.ok balance currencySymbol currencyCode)).bodyText =
        infoText (derivedSpspAddress creds)
          (if (if currencySymbol.truthy then currencySymbol else currencyCode).truthy
           then (if currencySymbol.truthy then currencySymbol else currencyCode).render
           else curPH)
          balPH) ∧
    (currencySymbol.truthy = false → currencyCode.truthy = false →
      (infoHandler store body (.ok balance currencySymbol currencyCode)).bodyText =
        infoText (derivedSpspAddress creds) curPH
          (if balance.truthy then balance.render else balPH)) := by
  constructor
  · intro hb; simp [infoHandler, hc, hb]
  · intro hs hcode; simp [infoHandler, hc, hs, hcode]

/-- C10 witness: a fetched balance of `0` and empty/undefined currency fields
    are reported as the placeholders. -/
theorem C10_witness :
    (infoHandler store1 body1 (.ok (.num 0) (.str "") .undef)).bodyText =
      infoText (derivedSpspAddress creds0) curPH balPH :=
  ((C10_theorem store1 body1 creds0 (.num 0) (.str "") .undef rfl).2 rfl rfl).trans
    (by simp [JsVal.truthy, balPH])

/-- C4: the dispatcher evaluates the patterns in the fixed order send,
    escaped register, plain register, info, help; the first match selects the
    handler (so a text matching the send pattern is always dispatched as
    send), and a text matching none yields the static help response. -/
theorem C4_theorem (t : String) :
    (sendTest t = true → classify t = .send) ∧
    (sendTest t = false → escapedTest t = true → classify t = .registerEsc) ∧
    (sendTest t = false → escapedTest t = false → registerTest t = true →
      classify t = .register) ∧
    (sendTest t = false → escapedTest t = false → registerTest t = false →
      infoTest t = true → classify t = .info) ∧
    (sendTest t = false → escapedTest t = false → registerTest t = false →
      infoTest t = false →
      classify t = .help ∧
      ∀ store body o fi pok, body.text = t →
        (requestHandler store body o fi pok).1 = ⟨200, helpText, []⟩) := by
  refine ⟨fun h1 => ?_, fun h1 h2 => ?_, fun h1 h2 h3 => ?_,
          fun h1 h2 h3 h4 => ?_, fun h1 h2 h3 h4 => ?_⟩
  · simp [classify, h1]
  · simp [classify, h1, h2]
  · simp [classify, h1, h2, h3]
  · simp [classify, h1, h2, h3, h4]
  · have hcl : classify t = .help := by simp [classify, h1, h2, h3, h4]
    refine ⟨hcl, fun store body o fi pok hbt => ?_⟩
    simp [requestHandler, hbt, hcl]

/-- A body whose text matches none of the patterns. -/
def bodyHelp : Body := ⟨"usender", "sender", "not a command", "https://resp.example"⟩

/-- C4 witness: the malformed text `not a command` matches no pattern and the
    dispatcher answers with the static help response. -/
theorem C4_witness :
    classify "not a command" = HKind.help ∧
    (requestHandler store0 bodyHelp oracleFail .bothFail true).1 = ⟨200, helpText, []⟩ := by
  obtain ⟨hcl, hall⟩ := (C4_theorem ("not a command")).2.2.2.2 rfl rfl rfl rfl
  exact ⟨hcl, hall store0 bodyHelp oracleFail .bothFail true rfl⟩

/-- C8: if the dispatcher classified the text as a send command (SEND_REGEX
    matched), the send handler's re-execution of the same regex cannot fail,
    so its 400 parameter-error branch is unreachable. -/
theorem C8_theorem (store : Store) (body : Body) (o : SendOracle)
    (hcl : classify body.text = HKind.send) :
    (sendHandler store body o).status ≠ 400 := by
  have hs : sendTest body.text = true := by
    by_contra hneg
    rw [Bool.not_eq_true] at hneg
    simp only [classify, hneg, Bool.false_eq_true, if_false] at hcl
    repeat' split at hcl
    all_goals exact HKind.noConfusion hcl
  rw [sendTest, Option.isSome_iff_exists] at hs
  obtain ⟨params, hp⟩ := hs
  cases hcs : store body.user_id with
  | none => simp [sendHandler, hcs]
  | some creds =>
    cases hr : resolveSpsp o.profile with
    | none => simp [sendHandler, hcs, hp, hr]
    | some v => simp [sendHandler, hcs, hp, hr]

/-- C8 witness: a concrete dispatched send command never returns 400. -/
theorem C8_witness :
    classify body1.text = HKind.send ∧
    (sendHandler store0 body1 oracleFail).status ≠ 400 :=
  ⟨rfl, C8_theorem store0 body1 oracleFail rfl⟩

/-- A registration body whose host part is not lowercase. -/
def bodyReg : Body := ⟨"u5", "carol", "register alice@EXAMPLE.com pw", "https://resp.example"⟩

/-- C5 counterexample: registering `alice@EXAMPLE.com` stores
    `https://EXAMPLE.com`, but the address the info workflow later derives is
    `alice@example.com` (the URL parser lowercases the host), which differs
    from the address `alice@EXAMPLE.com` used at registration time. -/
theorem C5_counterexample :
    registerParse bodyReg.text = some ("alice", "EXAMPLE.com", "pw") ∧
    (registerHandler store0 bodyReg true).2 "u5" =
      some ⟨"https://EXAMPLE.com", "alice", "pw"⟩ ∧
    derivedSpspAddress ⟨"https://EXAMPLE.com", "alice", "pw"⟩ = "alice@example.com" ∧
    "alice@example.com" ≠ "alice" ++ "@" ++ "EXAMPLE.com" := by
  refine ⟨rfl, rfl, rfl, ?_⟩
  decide

/-- Every element of the list satisfies the predicate, so `takeWhile` keeps
    the whole list. -/
theorem takeWhile_of_all {p : Char → Bool} :
    ∀ l : List Char, (∀ c ∈ l, p c = true) → l.takeWhile p = l := by
  intro l
  induction l with
  | nil => intro _; rfl
  | cons c rest ih =>
    intro hall
    have hc := hall c (List.mem_cons_self c rest)
    have hrest : List.takeWhile p rest = rest :=
      ih fun x hx => hall x (List.mem_cons_of_mem c hx)
    simp [List.takeWhile_cons, hc, hrest]

/-- Characters on which every step of WHATWG host parsing — authority
    delimiting, userinfo stripping, port splitting and default-port elision,
    lowercasing, percent-decoding, IDNA/punycode (which only rewrites labels
    containing non-ASCII or starting `xn--`, hence needing `-`), and IPv4
    normalization (which only fires on numeric trailing labels, hence
    needing digits) — acts as the identity: lowercase ASCII letters and the
    label separator dot. -/
def plainHostChar (c : Char) : Bool :=
  (97 ≤ c.toNat && c.toNat ≤ 122) || c == '.'

/-- A lowercase ASCII letter is distinct from every character below `a`. -/
theorem plainHostChar_facts {c : Char} (hc : plainHostChar c = true) :
    (c == '/' || c == '\\' || c == '?' || c == '#') = false ∧
    (c == '@') = false ∧ (c == ':') = false ∧ c.toLower = c := by
  have hc' : (97 ≤ c.toNat ∧ c.toNat ≤ 122) ∨ c = '.' := by
    simp only [plainHostChar, Bool.or_eq_true, Bool.and_eq_true,
      decide_eq_true_eq, beq_iff_eq] at hc
    exact hc
  rcases hc' with ⟨h1, h2⟩ | rfl
  · have hne : ∀ d : Char, d.toNat < 97 → (c == d) = false := fun d hd =>
      beq_eq_false_iff_ne.mpr fun hcd => by subst hcd; omega
    have hlow : c.toLower = c := by
      have hn : ¬(c.toNat ≥ 65 ∧ c.toNat ≤ 90) := by omega
      simp [Char.toLower, hn]
    refine ⟨?_, hne '@' (by decide), hne ':' (by decide), hlow⟩
    rw [hne '/' (by decide), hne '\\' (by decide), hne '?' (by decide), hne '#' (by decide)]
    rfl
  · exact ⟨by decide, by decide, by decide, by decide⟩

/-- The modelled URL host extraction is the identity on hosts made of
    lowercase ASCII letters and dots. -/
theorem urlHost_https (h : String)
    (hh : ∀ c ∈ h.data, plainHostChar c = true) :
    urlHost ("https://" ++ h) = h := by
  have hdrop : ("https://" ++ h).data.drop 8 = h.data := by
    rw [String.data_append]
    rw [show (8 : Nat) = ("https://".data).length from rfl]
    exact List.drop_left _ _
  have htake : h.data.takeWhile
      (fun c => !(c == '/' || c == '\\' || c == '?' || c == '#')) = h.data := by
    refine takeWhile_of_all _ fun c hc => ?_
    simp [(plainHostChar_facts (hh c hc)).1]
  have hat : (h.data.reverse.takeWhile fun c => !(c == '@')).reverse = h.data := by
    rw [takeWhile_of_all _ fun c hc => ?_, List.reverse_reverse]
    simp [(plainHostChar_facts (hh c (List.mem_reverse.mp hc))).2.1]
  have hcolon : h.data.takeWhile (fun c => !(c == ':')) = h.data := by
    refine takeWhile_of_all _ fun c hc => ?_
    simp [(plainHostChar_facts (hh c hc)).2.2.1]
  have hdropw : h.data.dropWhile (fun c => !(c == ':')) = [] := by
    rw [List.dropWhile_eq_nil_iff]
    intro c hc
    simp [(plainHostChar_facts (hh c hc)).2.2.1]
  have hmap : h.data.map Char.toLower = h.data := by
    rw [List.map_congr_left fun c hc => (plainHostChar_facts (hh c hc)).2.2.2]
    simp
  unfold urlHost
  simp only [hdrop, htake, hat, hcolon, hdropw, hmap]
  simp

/-- C5 amended: the round-trip holds for hosts on which WHATWG URL parsing
    acts as the identity — here, hosts consisting of lowercase ASCII letters
    and dots, such as `example.com`: the address the info workflow derives
    from the stored record then equals the registration-time address `u@h`.
    Outside this character set the parser can rewrite the host (uppercase is
    lowercased, a default `:443` port is elided, percent-escapes are decoded,
    non-ASCII labels are punycoded, numeric trailing labels are normalized as
    IPv4 addresses), breaking the round-trip. -/
theorem C5_amended_theorem (store : Store) (body : Body) (pok : Bool)
    (u h p : String)
    (hm : registerParse body.text = some (u, h, p))
    (hh : ∀ c ∈ h.data, plainHostChar c = true) :
    ∀ creds, (registerHandler store body pok).2 body.user_id = some creds →
      derivedSpspAddress creds = u ++ "@" ++ h := by
  intro creds hcreds
  have hstore : (registerHandler store body pok).2 body.user_id =
      some ⟨"https://" ++ h, u, p⟩ := by
    cases pok <;> simp [registerHandler, hm]
  rw [hstore] at hcreds
  obtain rfl : creds = ⟨"https://" ++ h, u, p⟩ := (Option.some.injEq _ _).mp hcreds.symm
  show u ++ "@" ++ urlHost ("https://" ++ h) = u ++ "@" ++ h
  rw [urlHost_https h hh]

/-- A registration body whose host is made of lowercase letters and dots. -/
def bodyRegLower : Body :=
  ⟨"u5", "carol", "register alice@example.com pw", "https://resp.example"⟩

/-- C5 amended witness: with the plain lowercase host `example.com` the
    derived address reproduces the registration-time address. -/
theorem C5_amended_witness :
    derivedSpspAddress ⟨"https://example.com", "alice", "pw"⟩ =
      "alice" ++ "@" ++ "example.com" :=
  C5_amended_theorem store0 bodyRegLower true "alice" "example.com" "pw" rfl
    (by decide) ⟨"https://example.com", "alice", "pw"⟩ rfl

/-! Matcher inversion and computation lemmas, used to settle the
    escaped-register refinement claim. -/

/-- `orElse` with an always-`none` fallback. -/
theorem orElse_none_right {α} (x : Option α) : (x.orElse fun _ => none) = x := by
  cases x <;> rfl

/-- Inverting a successful `orElse`. -/
theorem orElse_eq_some {α} {x : Option α} {f : Unit → Option α} {r : α}
    (h : x.orElse f = some r) : x = some r ∨ (x = none ∧ f () = some r) := by
  cases x with
  | none => exact Or.inr ⟨rfl, h⟩
  | some v => exact Or.inl h

/-- A successful greedy star consumed a prefix of characters of its class and
    handed the rest to its continuation. -/
theorem starGrun_some {p : Char → Bool} {k : List Char → Option Caps} :
    ∀ {s : List Char} {r : Caps}, starGrun p s k = some r →
      ∃ a b, s = a ++ b ∧ (∀ c ∈ a, p c = true) ∧ k b = some r := by
  intro s
  induction s with
  | nil =>
    intro r h
    exact ⟨[], [], rfl, by simp, h⟩
  | cons c rest ih =>
    intro r h
    rw [show starGrun p (c :: rest) k =
        if p c = true then (starGrun p rest k).orElse (fun _ => k (c :: rest))
        else k (c :: rest) from rfl] at h
    by_cases hc : p c = true
    · rw [if_pos hc] at h
      rcases orElse_eq_some h with h1 | ⟨_, h2⟩
      · obtain ⟨a, b, hab, hall, hk⟩ := ih h1
        refine ⟨c :: a, b, by rw [hab]; rfl, ?_, hk⟩
        intro x hx
        rcases List.mem_cons.mp hx with rfl | hx
        · exact hc
        · exact hall x hx
      · exact ⟨[], c :: rest, rfl, by simp, h2⟩
    · rw [if_neg hc] at h
      exact ⟨[], c :: rest, rfl, by simp, h⟩

/-- A successful greedy plus consumed a nonempty prefix of characters of its
    class. -/
theorem plusGrun_some {p : Char → Bool} {k : List Char → Option Caps}
    {s : List Char} {r : Caps} (h : plusGrun p s k = some r) :
    ∃ a b, s = a ++ b ∧ a ≠ [] ∧ (∀ c ∈ a, p c = true) ∧ k b = some r := by
  cases s with
  | nil => exact absurd h (by simp [plusGrun])
  | cons c rest =>
    rw [show plusGrun p (c :: rest) k =
        if p c = true then starGrun p rest k else none from rfl] at h
    by_cases hc : p c = true
    · rw [if_pos hc] at h
      obtain ⟨a, b, hab, hall, hk⟩ := starGrun_some h
      refine ⟨c :: a, b, by rw [hab]; rfl, by simp, ?_, hk⟩
      intro x hx
      rcases List.mem_cons.mp hx with rfl | hx
      · exact hc
      · exact hall x hx
    · rw [if_neg hc] at h
      exact absurd h (by simp)

/-- A successful lazy plus consumed a nonempty prefix of characters of its
    class. -/
theorem plusLrun_some {p : Char → Bool} {k : List Char → Option Caps} :
    ∀ {s : List Char} {r : Caps}, plusLrun p s k = some r →
      ∃ a b, s = a ++ b ∧ a ≠ [] ∧ (∀ c ∈ a, p c = true) ∧ k b = some r := by
  intro s
  induction s with
  | nil => intro r h; exact absurd h (by simp [plusLrun])
  | cons c rest ih =>
    intro r h
    rw [show plusLrun p (c :: rest) k =
        if p c = true then (k rest).orElse (fun _ => plusLrun p rest k)
        else none from rfl] at h
    by_cases hc : p c = true
    · rw [if_pos hc] at h
      rcases orElse_eq_some h with h1 | ⟨_, h2⟩
      · exact ⟨[c], rest, rfl, by simp, by simp [hc], h1⟩
      · obtain ⟨a, b, hab, hne, hall, hk⟩ := ih h2
        refine ⟨c :: a, b, by rw [hab]; rfl, by simp, ?_, hk⟩
        intro x hx
        rcases List.mem_cons.mp hx with rfl | hx
        · exact hc
        · exact hall x hx
    · rw [if_neg hc] at h
      exact absurd h (by simp)

/-- Syntactic absence of capture groups. -/
def groupFree : RE → Bool
  | .eps => true
  | .ch _ => true
  | .cat a b => groupFree a && groupFree b
  | .starG _ => true
  | .plusG _ => true
  | .plusL _ => true
  | .opt a => groupFree a
  | .grp _ _ => false
  | .eos => true

/-- `catAll` of group-free pieces is group-free. -/
theorem groupFree_catAll {l : List RE} (hl : ∀ r ∈ l, groupFree r = true) :
    groupFree (catAll l) = true := by
  induction l with
  | nil => rfl
  | cons r rs ih =>
    simp only [catAll, groupFree, Bool.and_eq_true]
    exact ⟨hl r (List.mem_cons_self _ _),
           ih fun x hx => hl x (List.mem_cons_of_mem r hx)⟩

/-- String-literal regexes contain no groups. -/
theorem groupFree_strRE (s : String) : groupFree (strRE s) = true :=
  groupFree_catAll fun r hr => by
    obtain ⟨c, _, rfl⟩ := List.mem_map.mp hr
    rfl

/-- A group-free regex invokes its continuation with the capture list it was
    given. -/
theorem mrun_groupFree_some : ∀ {a : RE}, groupFree a = true →
    ∀ {s : List Char} {k : List Char → Caps → Option Caps} {caps r : Caps},
      mrun a s k caps = some r → ∃ s2, k s2 caps = some r := by
  intro a
  induction a with
  | eps => intro _ s k caps r h; exact ⟨s, h⟩
  | ch p =>
    intro _ s k caps r h
    cases s with
    | nil => exact absurd h (by simp [mrun])
    | cons c rest =>
      rw [show mrun (.ch p) (c :: rest) k caps =
          if p c = true then k rest caps else none from rfl] at h
      by_cases hc : p c = true
      · rw [if_pos hc] at h; exact ⟨rest, h⟩
      · rw [if_neg hc] at h; exact absurd h (by simp)
  | cat a b iha ihb =>
    intro hgf s k caps r h
    simp only [groupFree, Bool.and_eq_true] at hgf
    obtain ⟨s2, h2⟩ := iha hgf.1 (show mrun a s _ caps = some r from h)
    exact ihb hgf.2 h2
  | starG p =>
    intro _ s k caps r h
    obtain ⟨a, b, _, _, hk⟩ := starGrun_some (show starGrun p s _ = some r from h)
    exact ⟨b, hk⟩
  | plusG p =>
    intro _ s k caps r h
    obtain ⟨a, b, _, _, _, hk⟩ := plusGrun_some (show plusGrun p s _ = some r from h)
    exact ⟨b, hk⟩
  | plusL p =>
    intro _ s k caps r h
    obtain ⟨a, b, _, _, _, hk⟩ := plusLrun_some (show plusLrun p s _ = some r from h)
    exact ⟨b, hk⟩
  | opt a iha =>
    intro hgf s k caps r h
    rcases orElse_eq_some (show (mrun a s k caps).orElse _ = some r from h) with h1 | ⟨_, h2⟩
    · exact iha hgf h1
    · exact ⟨s, h2⟩
  | grp i a iha =>
    intro hgf
    exact absurd hgf (by simp [groupFree])
  | eos =>
    intro _ s k caps r h
    cases s with
    | nil => exact ⟨[], h⟩
    | cons c rest => exact absurd h (by simp [mrun])

/-- Skipping over a group-free head of a concatenation. -/
theorem mrun_cat_skip {a b : RE} (hgf : groupFree a = true) {s : List Char}
    {k : List Char → Caps → Option Caps} {caps r : Caps}
    (h : mrun (.cat a b) s k caps = some r) :
    ∃ s2, mrun b s2 k caps = some r := by
  exact mrun_groupFree_some hgf (show mrun a s _ caps = some r from h)

/-- The slice a capture group records. -/
theorem take_append_self (a b : List Char) :
    (a ++ b).take ((a ++ b).length - b.length) = a := by
  rw [List.length_append, Nat.add_sub_cancel]
  exact List.take_left a b

/-- Inverting a lazy-plus capture group at the head of a concatenation. -/
theorem mrun_cat_grp_plusL_some {i : Nat} {p : Char → Bool} {T : RE}
    {s : List Char} {k : List Char → Caps → Option Caps} {caps r : Caps}
    (h : mrun (.cat (.grp i (.plusL p)) T) s k caps = some r) :
    ∃ a b, s = a ++ b ∧ a ≠ [] ∧ (∀ c ∈ a, p c = true) ∧
      mrun T b k ((i, a) :: caps) = some r := by
  have h' : plusLrun p s (fun s2 =>
      mrun T s2 k ((i, s.take (s.length - s2.length)) :: caps)) = some r := h
  obtain ⟨a, b, hab, hne, hall, hk⟩ := plusLrun_some h'
  subst hab
  rw [take_append_self] at hk
  exact ⟨a, b, rfl, hne, hall, hk⟩

/-- Inverting a greedy-plus capture group at the head of a concatenation. -/
theorem mrun_cat_grp_plusG_some {i : Nat} {p : Char → Bool} {T : RE}
    {s : List Char} {k : List Char → Caps → Option Caps} {caps r : Caps}
    (h : mrun (.cat (.grp i (.plusG p)) T) s k caps = some r) :
    ∃ a b, s = a ++ b ∧ a ≠ [] ∧ (∀ c ∈ a, p c = true) ∧
      mrun T b k ((i, a) :: caps) = some r := by
  have h' : plusGrun p s (fun s2 =>
      mrun T s2 k ((i, s.take (s.length - s2.length)) :: caps)) = some r := h
  obtain ⟨a, b, hab, hne, hall, hk⟩ := plusGrun_some h'
  subst hab
  rw [take_append_self] at hk
  exact ⟨a, b, rfl, hne, hall, hk⟩

/-- Inverting the end anchor. -/
theorem mrun_eos_some {s : List Char} {k : List Char → Caps → Option Caps}
    {caps r : Caps} (h : mrun .eos s k caps = some r) :
    s = [] ∧ k [] caps = some r := by
  cases s with
  | nil => exact ⟨rfl, h⟩
  | cons c rest => exact absurd h (by simp [mrun])

/-- Inverting an unanchored search: some start position matched. -/
theorem execFrom_some {r : RE} : ∀ {l : List Char} {caps : Caps},
    execFrom r l = some caps → ∃ s, execA r s = some caps := by
  intro l
  induction l with
  | nil => intro caps h; exact ⟨[], h⟩
  | cons c rest ih =>
    intro caps h
    rcases orElse_eq_some (show (execA r (c :: rest)).orElse _ = some caps from h)
      with h1 | ⟨_, h2⟩
    · exact ⟨c :: rest, h1⟩
    · exact ih h2

/-- A successful escaped-register parse yields nonempty whitespace-free
    username and host captures and a nonempty line-terminator-free password
    capture. -/
theorem escapedParse_some {t u h p : String}
    (he : escapedParse t = some (u, h, p)) :
    u.data ≠ [] ∧ (∀ c ∈ u.data, nonspaceP c = true) ∧
    h.data ≠ [] ∧ (∀ c ∈ h.data, nonspaceP c = true) ∧
    p.data ≠ [] ∧ (∀ c ∈ p.data, dotP c = true) := by
  simp only [escapedParse] at he
  obtain ⟨caps, hex, hf⟩ := Option.map_eq_some'.mp he
  obtain ⟨s0, hA⟩ := execFrom_some hex
  rw [execA] at hA
  unfold escapedRE at hA
  obtain ⟨s1, h1⟩ := mrun_cat_skip (groupFree_strRE _) hA
  obtain ⟨s2, h2⟩ := mrun_cat_skip (by rfl) h1
  obtain ⟨s3, h3⟩ := mrun_cat_skip (groupFree_strRE _) h2
  obtain ⟨s4, h4⟩ := mrun_cat_skip (by rfl) h3
  obtain ⟨s5, h5⟩ := mrun_cat_skip (by rfl) h4
  obtain ⟨a1, b1, _, hne1, hall1, hk1⟩ := mrun_cat_grp_plusL_some h5
  obtain ⟨s6, h6⟩ := mrun_cat_skip (by rfl) hk1
  obtain ⟨a2, b2, _, hne2, hall2, hk2⟩ := mrun_cat_grp_plusL_some h6
  obtain ⟨s7, h7⟩ := mrun_cat_skip (by rfl) hk2
  obtain ⟨s8, h8⟩ := mrun_cat_skip (by rfl) h7
  obtain ⟨a3, b3, _, hne3, hall3, hk3⟩ := mrun_cat_grp_plusG_some h8
  obtain ⟨hb3, hktop⟩ := mrun_eos_some hk3
  have hcaps : [(3, a3), (2, a2), (1, a1)] = caps := Option.some.inj hktop
  subst hcaps
  have hf' : (String.mk a1, String.mk a2, String.mk a3) = (u, h, p) := hf
  injection hf' with hfu hrest
  injection hrest with hfh hfp
  refine ⟨?_, ?_, ?_, ?_, ?_, ?_⟩
  · rw [show u.data = a1 from by rw [← hfu]]; exact hne1
  · rw [show u.data = a1 from by rw [← hfu]]; exact hall1
  · rw [show h.data = a2 from by rw [← hfh]]; exact hne2
  · rw [show h.data = a2 from by rw [← hfh]]; exact hall2
  · rw [show p.data = a3 from by rw [← hfp]]; exact hne3
  · rw [show p.data = a3 from by rw [← hfp]]; exact hall3

/-- Greedy star skips a run on which the continuation fails at every interior
    backtrack point. -/
theorem starGrun_skip {p : Char → Bool} {k : List Char → Option Caps} :
    ∀ (a b : List Char), (∀ c ∈ a, p c = true) →
      (∀ a2, a2 ≠ [] → (∃ a1, a = a1 ++ a2) → k (a2 ++ b) = none) →
      starGrun p (a ++ b) k = starGrun p b k := by
  intro a
  induction a with
  | nil => intro b _ _; rfl
  | cons c a' ih =>
    intro b hall hfail
    simp only [List.cons_append]
    rw [show starGrun p (c :: (a' ++ b)) k =
        if p c = true then (starGrun p (a' ++ b) k).orElse (fun _ => k (c :: (a' ++ b)))
        else k (c :: (a' ++ b)) from rfl,
      if_pos (hall c (List.mem_cons_self _ _))]
    have h2 : k (c :: (a' ++ b)) = none := by
      have := hfail (c :: a') (by simp) ⟨[], rfl⟩
      simpa [List.cons_append] using this
    simp only [h2]
    rw [orElse_none_right]
    exact ih b (fun x hx => hall x (List.mem_cons_of_mem c hx))
      (fun a2 hne hsp => hfail a2 hne
        (by obtain ⟨a1, rfl⟩ := hsp; exact ⟨c :: a1, rfl⟩))

/-- Greedy star over the whole remaining input, when the continuation fails
    at every nonempty suffix: the star consumes everything. -/
theorem starGrun_end {p : Char → Bool} {k : List Char → Option Caps} :
    ∀ a : List Char, (∀ c ∈ a, p c = true) →
      (∀ a2, a2 ≠ [] → (∃ a1, a = a1 ++ a2) → k a2 = none) →
      starGrun p a k = k [] := by
  intro a
  induction a with
  | nil => intro _ _; rfl
  | cons c a' ih =>
    intro hall hfail
    rw [show starGrun p (c :: a') k =
        if p c = true then (starGrun p a' k).orElse (fun _ => k (c :: a'))
        else k (c :: a') from rfl,
      if_pos (hall c (List.mem_cons_self _ _))]
    have h2 : k (c :: a') = none := hfail (c :: a') (by simp) ⟨[], rfl⟩
    simp only [h2]
    rw [orElse_none_right]
    exact ih (fun x hx => hall x (List.mem_cons_of_mem c hx))
      (fun a2 hne hsp => hfail a2 hne
        (by obtain ⟨a1, rfl⟩ := hsp; exact ⟨c :: a1, rfl⟩))

/-- A non-whitespace character is not the space the pattern expects next. -/
theorem nonspace_ne_space {c : Char} (hc : nonspaceP c = true) : (c == ' ') = false := by
  by_cases h : c = ' '
  · subst h; exact absurd hc (by decide)
  · exact beq_eq_false_iff_ne.mpr h

/-- A concatenation headed by the wrong literal character fails. -/
theorem mrun_lit_cons_ne {c0 x : Char} {T : RE} {l : List Char}
    {k : List Char → Caps → Option Caps} {caps : Caps}
    (hne : (x == c0) = false) :
    mrun (.cat (litRE c0) T) (x :: l) k caps = none := by
  rw [show mrun (.cat (litRE c0) T) (x :: l) k caps =
      if (x == c0) = true then mrun T l k caps else none from rfl]
  simp [hne]

/-- Greedy star crossing a literal `@` boundary: the run before the boundary
    is skipped, the exploration beyond the `@` (through the host run and the
    following space) fails, so the star stops exactly at the `@`. -/
theorem starGrun_atsign {k : List Char → Option Caps}
    (h2 b : List Char) (hhs : ∀ c ∈ h2, nonspaceP c = true)
    (hfailh : ∀ a2, a2 ≠ [] → (∃ a1, h2 = a1 ++ a2) → k (a2 ++ ' ' :: b) = none)
    (hfailsp : k (' ' :: b) = none) :
    starGrun nonspaceP ('@' :: (h2 ++ ' ' :: b)) k = k ('@' :: (h2 ++ ' ' :: b)) := by
  rw [show starGrun nonspaceP ('@' :: (h2 ++ ' ' :: b)) k =
      (starGrun nonspaceP (h2 ++ ' ' :: b) k).orElse
        (fun _ => k ('@' :: (h2 ++ ' ' :: b))) from rfl]
  rw [starGrun_skip h2 (' ' :: b) hhs hfailh]
  rw [show starGrun nonspaceP (' ' :: b) k = k (' ' :: b) from rfl, hfailsp]
  rfl

/-- Stage 3 of the plain register match: the password group consumes the rest
    of the input and the end anchor closes the match. -/
theorem regStage3 (p3 : List Char) (hp : p3 ≠ []) (hpd : ∀ c ∈ p3, dotP c = true)
    (caps : Caps) :
    mrun (.cat (.grp 3 (.plusG dotP)) .eos) p3 (fun _ c => some c) caps =
      some ((3, p3) :: caps) := by
  cases p3 with
  | nil => exact absurd rfl hp
  | cons c p' =>
    have hc : dotP c = true := hpd c (List.mem_cons_self _ _)
    rw [show mrun (.cat (.grp 3 (.plusG dotP)) .eos) (c :: p') (fun _ c => some c) caps =
        (if dotP c = true
         then starGrun dotP p' (fun s2 =>
           mrun .eos s2 (fun _ c => some c)
             ((3, (c :: p').take ((c :: p').length - s2.length)) :: caps))
         else none) from rfl,
      if_pos hc]
    rw [starGrun_end p' (fun x hx => hpd x (List.mem_cons_of_mem c hx))
      (fun a2 hne _ => by cases a2 with
        | nil => exact absurd rfl hne
        | cons y a2' => rfl)]
    show some ((3, (c :: p').take ((c :: p').length - 0)) :: caps) = some ((3, c :: p') :: caps)
    rw [Nat.sub_zero, List.take_length]

/-- Stage 2 of the plain register match: the host group stops greedily at the
    space before the password. -/
theorem regStage2 (h2 p3 : List Char)
    (hh : h2 ≠ []) (hhs : ∀ c ∈ h2, nonspaceP c = true)
    (hp : p3 ≠ []) (hpd : ∀ c ∈ p3, dotP c = true) (caps : Caps) :
    mrun (.cat (.grp 2 (.plusG nonspaceP))
          (.cat (litRE ' ') (.cat (.grp 3 (.plusG dotP)) .eos)))
      (h2 ++ ' ' :: p3) (fun _ c => some c) caps =
      some ((3, p3) :: (2, h2) :: caps) := by
  cases h2 with
  | nil => exact absurd rfl hh
  | cons c h' =>
    have hc : nonspaceP c = true := hhs c (List.mem_cons_self _ _)
    simp only [List.cons_append]
    rw [show mrun (.cat (.grp 2 (.plusG nonspaceP))
          (.cat (litRE ' ') (.cat (.grp 3 (.plusG dotP)) .eos)))
        (c :: (h' ++ ' ' :: p3)) (fun _ c => some c) caps =
        (if nonspaceP c = true
         then starGrun nonspaceP (h' ++ ' ' :: p3) (fun s2 =>
           mrun (.cat (litRE ' ') (.cat (.grp 3 (.plusG dotP)) .eos)) s2 (fun _ c => some c)
             ((2, ((c :: h') ++ ' ' :: p3).take
                (((c :: h') ++ ' ' :: p3).length - s2.length)) :: caps))
         else none) from rfl,
      if_pos hc]
    rw [starGrun_skip h' (' ' :: p3)
      (fun x hx => hhs x (List.mem_cons_of_mem c hx))
      (fun a2 hne hsp => by
        cases a2 with
        | nil => exact absurd rfl hne
        | cons y a2' =>
          obtain ⟨a1, ha1⟩ := hsp
          have hy : nonspaceP y = true := by
            refine hhs y (List.mem_cons_of_mem c ?_)
            rw [ha1]
            exact List.mem_append_right _ (List.mem_cons_self _ _)
          simp only [List.cons_append]
          exact mrun_lit_cons_ne (nonspace_ne_space hy))]
    rw [show starGrun nonspaceP (' ' :: p3) (fun s2 =>
        mrun (.cat (litRE ' ') (.cat (.grp 3 (.plusG dotP)) .eos)) s2 (fun _ c => some c)
          ((2, ((c :: h') ++ ' ' :: p3).take
            (((c :: h') ++ ' ' :: p3).length - s2.length)) :: caps)) =
        mrun (.cat (.grp 3 (.plusG dotP)) .eos) p3 (fun _ c => some c)
          ((2, ((c :: h') ++ ' ' :: p3).take
            (((c :: h') ++ ' ' :: p3).length - (' ' :: p3).length)) :: caps) from rfl]
    rw [take_append_self]
    exact regStage3 p3 hp hpd ((2, c :: h') :: caps)

/-- Stage 1 of the plain register match: with an `@`-free username and host,
    the greedy username group stops exactly at the `@` separator. -/
theorem regStage1 (u h2 p3 : List Char)
    (hu : u ≠ []) (hus : ∀ c ∈ u, nonspaceP c = true)
    (hua : ∀ c ∈ u, (c == '@') = false)
    (hh : h2 ≠ []) (hhs : ∀ c ∈ h2, nonspaceP c = true)
    (hha : ∀ c ∈ h2, (c == '@') = false)
    (hp : p3 ≠ []) (hpd : ∀ c ∈ p3, dotP c = true) (caps : Caps) :
    mrun (.cat (.grp 1 (.plusG nonspaceP))
          (.cat (litRE '@')
          (.cat (.grp 2 (.plusG nonspaceP))
          (.cat (litRE ' ') (.cat (.grp 3 (.plusG dotP)) .eos)))))
      (u ++ '@' :: (h2 ++ ' ' :: p3)) (fun _ c => some c) caps =
      some ((3, p3) :: (2, h2) :: (1, u) :: caps) := by
  cases u with
  | nil => exact absurd rfl hu
  | cons c u' =>
    have hc : nonspaceP c = true := hus c (List.mem_cons_self _ _)
    simp only [List.cons_append]
    rw [show mrun (.cat (.grp 1 (.plusG nonspaceP))
          (.cat (litRE '@')
          (.cat (.grp 2 (.plusG nonspaceP))
          (.cat (litRE ' ') (.cat (.grp 3 (.plusG dotP)) .eos)))))
        (c :: (u' ++ '@' :: (h2 ++ ' ' :: p3))) (fun _ c => some c) caps =
        (if nonspaceP c = true
         then starGrun nonspaceP (u' ++ '@' :: (h2 ++ ' ' :: p3)) (fun s2 =>
           mrun (.cat (litRE '@')
             (.cat (.grp 2 (.plusG nonspaceP))
             (.cat (litRE ' ') (.cat (.grp 3 (.plusG dotP)) .eos)))) s2 (fun _ c => some c)
             ((1, ((c :: u') ++ '@' :: (h2 ++ ' ' :: p3)).take
               (((c :: u') ++ '@' :: (h2 ++ ' ' :: p3)).length - s2.length)) :: caps))
         else none) from rfl,
      if_pos hc]
    rw [starGrun_skip u' ('@' :: (h2 ++ ' ' :: p3))
      (fun x hx => hus x (List.mem_cons_of_mem c hx))
      (fun a2 hne hsp => by
        cases a2 with
        | nil => exact absurd rfl hne
        | cons y a2' =>
          obtain ⟨a1, ha1⟩ := hsp
          have hy : (y == '@') = false := by
            refine hua y (List.mem_cons_of_mem c ?_)
            rw [ha1]
            exact List.mem_append_right _ (List.mem_cons_self _ _)
          simp only [List.cons_append]
          exact mrun_lit_cons_ne hy)]
    rw [starGrun_atsign h2 p3 hhs
      (fun a2 hne hsp => by
        cases a2 with
        | nil => exact absurd rfl hne
        | cons y a2' =>
          obtain ⟨a1, ha1⟩ := hsp
          have hy : (y == '@') = false := by
            refine hha y ?_
            rw [ha1]
            exact List.mem_append_right _ (List.mem_cons_self _ _)
          simp only [List.cons_append]
          exact mrun_lit_cons_ne hy)
      (mrun_lit_cons_ne (by rfl))]
    show mrun (.cat (.grp 2 (.plusG nonspaceP))
          (.cat (litRE ' ') (.cat (.grp 3 (.plusG dotP)) .eos)))
        (h2 ++ ' ' :: p3) (fun _ c => some c)
        ((1, ((c :: u') ++ '@' :: (h2 ++ ' ' :: p3)).take
          (((c :: u') ++ '@' :: (h2 ++ ' ' :: p3)).length -
            ('@' :: (h2 ++ ' ' :: p3)).length)) :: caps) =
      some ((3, p3) :: (2, h2) :: (1, c :: u') :: caps)
    rw [take_append_self]
    exact regStage2 h2 p3 hh hhs hp hpd ((1, c :: u') :: caps)

/-- The rewritten escaped registration re-parses under the plain register
    regex, recovering the same three captures, whenever the username and host
    captures are `@`-free. -/
theorem registerParse_rewrite (u h p : String)
    (hu : u.data ≠ []) (hus : ∀ c ∈ u.data, nonspaceP c = true)
    (hua : ∀ c ∈ u.data, (c == '@') = false)
    (hh : h.data ≠ []) (hhs : ∀ c ∈ h.data, nonspaceP c = true)
    (hha : ∀ c ∈ h.data, (c == '@') = false)
    (hp : p.data ≠ []) (hpd : ∀ c ∈ p.data, dotP c = true) :
    registerParse (rewriteEsc u h p) = some (u, h, p) := by
  have hdata : (rewriteEsc u h p).data =
      "register ".data ++ (u.data ++ '@' :: (h.data ++ ' ' :: p.data)) := by
    show ("register " ++ u ++ "@" ++ h ++ " " ++ p).data = _
    simp only [String.data_append, List.append_assoc]
    rfl
  have hA : execA registerRE
      ("register ".data ++ (u.data ++ '@' :: (h.data ++ ' ' :: p.data))) =
      some [(3, p.data), (2, h.data), (1, u.data)] := by
    rw [show execA registerRE
        ("register ".data ++ (u.data ++ '@' :: (h.data ++ ' ' :: p.data))) =
        mrun (.cat (.grp 1 (.plusG nonspaceP))
          (.cat (litRE '@')
          (.cat (.grp 2 (.plusG nonspaceP))
          (.cat (litRE ' ') (.cat (.grp 3 (.plusG dotP)) .eos)))))
          (u.data ++ '@' :: (h.data ++ ' ' :: p.data)) (fun _ c => some c) [] from rfl]
    exact regStage1 u.data h.data p.data hu hus hua hh hhs hha hp hpd []
  rw [registerParse, hdata]
  rw [show execFrom registerRE
      ("register ".data ++ (u.data ++ '@' :: (h.data ++ ' ' :: p.data))) =
      (execA registerRE
        ("register ".data ++ (u.data ++ '@' :: (h.data ++ ' ' :: p.data)))).orElse
        (fun _ => execFrom registerRE
          ("egister ".data ++ (u.data ++ '@' :: (h.data ++ ' ' :: p.data)))) from rfl]
  rw [hA]
  rfl

/-- C9 counterexample: the escaped pattern lazily captures
    `("x", "y@z", "pw")` from `register <mailto:a|x@y@z> pw`, but re-parsing
    the rewritten text `register x@y@z pw` with the greedy plain pattern
    yields `("x@y", "z", "pw")`, so the escaped parse does not refine to the
    plain parse composed with the rewrite. -/
theorem C9_counterexample :
    escapedParse "register <mailto:a|x@y@z> pw" = some ("x", "y@z", "pw") ∧
    registerParse (rewriteEsc "x" "y@z" "pw") = some ("x@y", "z", "pw") ∧
    (("x@y" : String), ("z" : String), ("pw" : String)) ≠
      (("x" : String), ("y@z" : String), ("pw" : String)) :=
  ⟨rfl, rfl, by decide⟩

/-- C9 amended: whenever the username and host captured by the escaped
    pattern contain no `@`, rewriting to the plain form and re-parsing with
    the plain register pattern recovers the same three components. -/
theorem C9_amended_theorem (t u h p : String)
    (he : escapedParse t = some (u, h, p))
    (hua : ∀ c ∈ u.data, (c == '@') = false)
    (hha : ∀ c ∈ h.data, (c == '@') = false) :
    registerParse (rewriteEsc u h p) = some (u, h, p) := by
  obtain ⟨hu, hus, hh, hhs, hp, hpd⟩ := escapedParse_some he
  exact registerParse_rewrite u h p hu hus hua hh hhs hha hp hpd

/-- C9 amended witness: a concrete escaped registration with `@`-free
    username and host round-trips through the rewrite. -/
theorem C9_amended_witness :
    registerParse (rewriteEsc "alice" "example.com" "secret") =
      some ("alice", "example.com", "secret") :=
  C9_amended_theorem ("register <mailto:alice@example.com|alice@example.com> secret")
    "alice" "example.com" "secret" rfl (by decide) (by decide)

end Payto
